import Mathlib

/-!
Verification of the PyAlpha backtesting core (`pyalpha/alpha/alpha.py`) against its
natural-language specification.

The simulation engine `Alpha.simulate`, the dataset repair step
`Alpha.verify_historical_data` and the data model are embedded shallowly:
Python floats and ints are modelled as exact rationals `ℚ` / integers `ℤ`,
the date-keyed dictionary `self.data` as an association list with distinct keys,
and Python exceptions (`ZeroDivisionError`, `IndexError`, numpy's shape
`ValueError`) as an `Except SimError` result.
-/

/-- Modelled from the spec: `HistoricalStock`
(`pyalpha/data_structures/historical_stock.py` is not part of the sources here).
The spec's HistoricalRecord holds a stock identifier, a trade date, OHLCV data
(open, high, low, close, volume) and a realized-return field that defaults to
zero and is written only by the simulation engine.  The Python attribute `open`
is called `openP` (`open` is a Lean keyword); dates are modelled as naturals
(only their ordering matters to the engine). -/
structure HistoricalStock where
  symbol : String
  date : ℕ
  openP : ℚ
  high : ℚ
  low : ℚ
  close : ℚ
  volume : ℤ
  returns : ℚ
deriving DecidableEq

/-- A default record, used only as the out-of-range default of `List.getD`. -/
def defaultStock : HistoricalStock :=
  ⟨"", 0, 0, 0, 0, 0, 0, 0⟩

instance : Inhabited HistoricalStock := ⟨defaultStock⟩

/-- The in-place field write `self.data[trading_day][j].returns = return_on_stock`
(alpha.py line 148): all fields are kept, the `returns` field is replaced. -/
def setReturns (t : HistoricalStock) (r : ℚ) : HistoricalStock :=
  ⟨t.symbol, t.date, t.openP, t.high, t.low, t.close, t.volume, r⟩

/-- All fields of a record except the realized-return field (the frame of
`simulate`'s mutation). -/
def frameOf (t : HistoricalStock) : String × ℕ × ℚ × ℚ × ℚ × ℚ × ℤ :=
  (t.symbol, t.date, t.openP, t.high, t.low, t.close, t.volume)

/-- The mapping `self.data`: a map from calendar date to the list of per-stock records,
as an association list (Python dict keys are distinct; where a proof needs this
it takes a `Nodup` hypothesis). -/
abbrev Dataset := List (ℕ × List HistoricalStock)

/-- A dataset entry with the records projected to their non-return fields. -/
def entryFrame (p : ℕ × List HistoricalStock) : ℕ × List (String × ℕ × ℚ × ℚ × ℚ × ℚ × ℤ) :=
  (p.1, p.2.map frameOf)

/-- Dictionary read `self.data[key]`.  In `simulate` the key is always one of the
dict's own keys, so the `[]` returned for an absent key is never reached there. -/
def getRecords : Dataset → ℕ → List HistoricalStock
  | [], _ => []
  | p :: rest, k => if p.1 = k then p.2 else getRecords rest k

/-- Replacing the record list stored under a key (the aggregate effect of the
per-record writes to `self.data[trading_day]`). -/
def updateDataset : Dataset → ℕ → List HistoricalStock → Dataset
  | [], _, _ => []
  | p :: rest, k, v =>
    if p.1 = k then (p.1, v) :: updateDataset rest k v
    else p :: updateDataset rest k v

/-- Python's `int(x)` applied to a (here: exact rational) number: truncation
toward zero. -/
def truncToZero (q : ℚ) : ℤ :=
  if q < 0 then -⌊-q⌋ else ⌊q⌋

/-- The Python exceptions the simulation loop can raise:
`ZeroDivisionError` from the two divisions (alpha.py lines 143-144 and 151),
`IndexError` from `stock_prices_open[j]` / `stock_prices_close[j]` when the
trading day has fewer records than the data day, and numpy's shape `ValueError`
from `np.dot` on vectors of different lengths. -/
inductive SimError where
  | zeroDivision
  | indexError
  | valueError
deriving DecidableEq

/-- The inner loop `for j in range(len(alpha_stock))` of `simulate`
(alpha.py lines 142-149): walks the score list and the trading day's records
positionally, producing the stock (quantity) vector, the accumulated
`returns_day`, and the trading day's records with their `returns` fields
written.  `int(alpha_stock[j] * funds / (alpha_total * open[j]))` raises
`ZeroDivisionError` when the denominator is zero, and indexing the trading
day's prices raises `IndexError` when its records run out. -/
def dayStep (funds alpha_total : ℚ) :
    List ℚ → List HistoricalStock → Except SimError (List ℤ × ℚ × List HistoricalStock)
  | [], ts => Except.ok ([], 0, ts)
  | _ :: _, [] => Except.error SimError.indexError
  | a :: as, t :: ts =>
    if alpha_total * t.openP = 0 then Except.error SimError.zeroDivision
    else
      match dayStep funds alpha_total as ts with
      | Except.error e => Except.error e
      | Except.ok (qs, rd, ts2) =>
        Except.ok (truncToZero (a * funds / (alpha_total * t.openP)) :: qs,
          (t.close - t.openP) * (truncToZero (a * funds / (alpha_total * t.openP)) : ℚ) + rd,
          setReturns t ((t.close - t.openP) *
            (truncToZero (a * funds / (alpha_total * t.openP)) : ℚ)) :: ts2)

/-- One iteration of the day loop of `simulate` (alpha.py lines 120-152, without
the turnover bookkeeping): scores every record of the data day, runs the inner
loop against the trading day's records, then appends
`returns_day * 100.0 / funds` (a `ZeroDivisionError` when `funds` is zero) and
updates `funds += returns_day`.  Returns the updated dataset, the new funds,
the appended returns entry and the day's stock vector. -/
def processDay (f : HistoricalStock → ℚ) (data : Dataset) (funds : ℚ)
    (data_day trading_day : ℕ) : Except SimError (Dataset × ℚ × ℚ × List ℤ) :=
  match dayStep funds ((getRecords data data_day).map f).sum
      ((getRecords data data_day).map f) (getRecords data trading_day) with
  | Except.error e => Except.error e
  | Except.ok (sv, returns_day, ts2) =>
    if funds = 0 then Except.error SimError.zeroDivision
    else
      Except.ok (updateDataset data trading_day ts2, funds + returns_day,
        returns_day * 100 / funds, sv)

/-- The dot product `np.dot` of two integer vectors.  (numpy computes it in int64; no claim
here depends on turnover magnitudes, only on lengths and the leading zero.) -/
def dotZ (v w : List ℤ) : ℤ :=
  (List.zipWith (fun a b => a * b) v w).sum

/-- The day loop `for i in range(1, len(days))` of `simulate`
(alpha.py lines 120-157), recursing over the sorted date list two at a time:
`data_day = days[i-1]`, `trading_day = days[i]`.  Carries the dataset, the
funds, the two output series and the previous day's stock vector
(`stock_vector_old`, `none` before the first processed day).  `np.dot` raises
a shape `ValueError` when the two vectors have different lengths. -/
def simLoop (f : HistoricalStock → ℚ) (data : Dataset) (funds : ℚ)
    (rets : List ℚ) (turn : List ℤ) (svOld : Option (List ℤ)) :
    List ℕ → Except SimError (Dataset × ℚ × List ℚ × List ℤ)
  | [] => Except.ok (data, funds, rets, turn)
  | [_] => Except.ok (data, funds, rets, turn)
  | d1 :: d2 :: rest =>
    match processDay f data funds d1 d2 with
    | Except.error e => Except.error e
    | Except.ok (data2, funds2, entry, sv) =>
      match svOld with
      | none => simLoop f data2 funds2 (rets ++ [entry]) turn (some sv) (d2 :: rest)
      | some svo =>
        if sv.length = svo.length then
          simLoop f data2 funds2 (rets ++ [entry]) (turn ++ [dotZ sv svo]) (some sv)
            (d2 :: rest)
        else Except.error SimError.valueError

/-- The mutable attributes of an `Alpha` instance that `simulate` reads or
writes: `self.funds`, `self.turnover`, `self.returns`, `self.data`. -/
structure AlphaState where
  funds : ℚ
  turnover : List ℤ
  returns : List ℚ
  data : Dataset
deriving DecidableEq

/-- Constructor `Alpha.__init__` (alpha.py lines 26-35): funds start at the constant
1,000,000, turnover at `[0]`, returns empty. -/
def initState (d : Dataset) : AlphaState :=
  ⟨1000000, [0], [], d⟩

/-- Sorting `days = sorted(days)` over the dict's keys (alpha.py lines 115-119). -/
def sortedDays (d : Dataset) : List ℕ :=
  List.insertionSort (fun a b => a ≤ b) (d.map Prod.fst)

/-- Engine entry point `Alpha.simulate` (alpha.py lines 107-157).  Re-initializes
`self.turnover = [0]` and `self.returns = []` (it does not touch
`self.funds`), sorts the dataset's dates and runs the day loop. -/
def simulate (f : HistoricalStock → ℚ) (st : AlphaState) : Except SimError AlphaState :=
  match simLoop f st.data st.funds [] [0] none (sortedDays st.data) with
  | Except.error e => Except.error e
  | Except.ok (data2, funds2, rets, turn) => Except.ok ⟨funds2, turn, rets, data2⟩

/-- The maximum `max(stock_count)` in `verify_historical_data` (alpha.py line 66): the
largest per-date record count. -/
def maxRecordCount (d : Dataset) : ℕ :=
  (d.map (fun p => p.2.length)).foldl max 0

/-- Repair step `Alpha.verify_historical_data` (alpha.py lines 62-72): computes the maximum
record count over all dates and pops every date with strictly fewer records.
On an empty mapping Python's `max([])` raises `ValueError`, modelled as
`none`. -/
def verify_historical_data (d : Dataset) : Option Dataset :=
  match d with
  | [] => none
  | _ :: _ => some (d.filter (fun p => decide (¬ p.2.length < maxRecordCount d)))

/-- The quantity (stock) vector `simulate` computes for one trading day, as a
function of the data day's records and the trading day's records
(alpha.py lines 132-145): the scores come from the data day, the open prices
from the trading day. -/
def dayQuantities (f : HistoricalStock → ℚ) (funds : ℚ)
    (ds ts : List HistoricalStock) : Except SimError (List ℤ) :=
  (dayStep funds ((ds.map f)).sum (ds.map f) ts).map (fun r => r.1)

theorem dayStep_ok_length (funds tot : ℚ) :
    ∀ (alphas : List ℚ) (ts : List HistoricalStock) qs rd ts2,
      dayStep funds tot alphas ts = Except.ok (qs, rd, ts2) →
      qs.length = alphas.length ∧ ts2.length = ts.length := by
  intro alphas
  induction alphas with
  | nil =>
    intro ts qs rd ts2 h
    simp only [dayStep, Except.ok.injEq, Prod.mk.injEq] at h
    obtain ⟨h1, _, h3⟩ := h
    subst h1
    subst h3
    simp
  | cons a as ih =>
    intro ts qs rd ts2 h
    cases ts with
    | nil => simp [dayStep] at h
    | cons t ts0 =>
      rw [dayStep] at h
      by_cases hz : tot * t.openP = 0
      · rw [if_pos hz] at h
        simp at h
      · rw [if_neg hz] at h
        cases hds : dayStep funds tot as ts0 with
        | error e => rw [hds] at h; simp at h
        | ok r =>
          obtain ⟨qs0, rd0, ts1⟩ := r
          rw [hds] at h
          simp only [Except.ok.injEq, Prod.mk.injEq] at h
          obtain ⟨h1, _, h3⟩ := h
          subst h1
          subst h3
          have h4 := ih ts0 qs0 rd0 ts1 hds
          simp [h4.1, h4.2]

theorem dayStep_ok_getD (funds tot : ℚ) :
    ∀ (alphas : List ℚ) (ts : List HistoricalStock) qs rd ts2,
      dayStep funds tot alphas ts = Except.ok (qs, rd, ts2) →
      ∀ j, j < alphas.length →
        qs.getD j 0 =
          truncToZero (alphas.getD j 0 * funds / (tot * (ts.getD j defaultStock).openP)) := by
  intro alphas
  induction alphas with
  | nil =>
    intro ts qs rd ts2 h j hj
    simp at hj
  | cons a as ih =>
    intro ts qs rd ts2 h j hj
    cases ts with
    | nil => simp [dayStep] at h
    | cons t ts0 =>
      rw [dayStep] at h
      by_cases hz : tot * t.openP = 0
      · rw [if_pos hz] at h
        simp at h
      · rw [if_neg hz] at h
        cases hds : dayStep funds tot as ts0 with
        | error e => rw [hds] at h; simp at h
        | ok r =>
          obtain ⟨qs0, rd0, ts1⟩ := r
          rw [hds] at h
          simp only [Except.ok.injEq, Prod.mk.injEq] at h
          obtain ⟨h1, _, _⟩ := h
          subst h1
          cases j with
          | zero => simp
          | succ j0 =>
            simp only [List.getD_cons_succ]
            exact ih ts0 qs0 rd0 ts1 hds j0 (by simpa using hj)

theorem dayStep_ok_sum (funds tot : ℚ) :
    ∀ (alphas : List ℚ) (ts : List HistoricalStock) qs rd ts2,
      dayStep funds tot alphas ts = Except.ok (qs, rd, ts2) →
      rd = (List.zipWith (fun (q : ℤ) (t : HistoricalStock) =>
              (t.close - t.openP) * (q : ℚ)) qs ts).sum := by
  intro alphas
  induction alphas with
  | nil =>
    intro ts qs rd ts2 h
    simp only [dayStep, Except.ok.injEq, Prod.mk.injEq] at h
    obtain ⟨h1, h2, _⟩ := h
    subst h1
    simp [← h2]
  | cons a as ih =>
    intro ts qs rd ts2 h
    cases ts with
    | nil => simp [dayStep] at h
    | cons t ts0 =>
      rw [dayStep] at h
      by_cases hz : tot * t.openP = 0
      · rw [if_pos hz] at h
        simp at h
      · rw [if_neg hz] at h
        cases hds : dayStep funds tot as ts0 with
        | error e => rw [hds] at h; simp at h
        | ok r =>
          obtain ⟨qs0, rd0, ts1⟩ := r
          rw [hds] at h
          simp only [Except.ok.injEq, Prod.mk.injEq] at h
          obtain ⟨h1, h2, _⟩ := h
          subst h1
          rw [← h2, ih ts0 qs0 rd0 ts1 hds]
          simp

theorem dayStep_ok_frames (funds tot : ℚ) :
    ∀ (alphas : List ℚ) (ts : List HistoricalStock) qs rd ts2,
      dayStep funds tot alphas ts = Except.ok (qs, rd, ts2) →
      ts2.map frameOf = ts.map frameOf := by
  intro alphas
  induction alphas with
  | nil =>
    intro ts qs rd ts2 h
    simp only [dayStep, Except.ok.injEq, Prod.mk.injEq] at h
    rw [← h.2.2]
  | cons a as ih =>
    intro ts qs rd ts2 h
    cases ts with
    | nil => simp [dayStep] at h
    | cons t ts0 =>
      rw [dayStep] at h
      by_cases hz : tot * t.openP = 0
      · rw [if_pos hz] at h
        simp at h
      · rw [if_neg hz] at h
        cases hds : dayStep funds tot as ts0 with
        | error e => rw [hds] at h; simp at h
        | ok r =>
          obtain ⟨qs0, rd0, ts1⟩ := r
          rw [hds] at h
          simp only [Except.ok.injEq, Prod.mk.injEq] at h
          obtain ⟨_, _, h3⟩ := h
          subst h3
          simp only [List.map_cons]
          rw [ih ts0 qs0 rd0 ts1 hds]
          rfl

theorem dayStep_map_fst_open (funds tot : ℚ) :
    ∀ (alphas : List ℚ) (ts ts' : List HistoricalStock),
      ts.map HistoricalStock.openP = ts'.map HistoricalStock.openP →
      (dayStep funds tot alphas ts).map (fun r => r.1) =
        (dayStep funds tot alphas ts').map (fun r => r.1) := by
  intro alphas
  induction alphas with
  | nil =>
    intro ts ts' _
    simp [dayStep, Except.map]
  | cons a as ih =>
    intro ts ts' hmap
    cases ts with
    | nil =>
      cases ts' with
      | nil => rfl
      | cons t' ts0' => simp at hmap
    | cons t ts0 =>
      cases ts' with
      | nil => simp at hmap
      | cons t' ts0' =>
        simp only [List.map_cons, List.cons.injEq] at hmap
        obtain ⟨hopen, htail⟩ := hmap
        rw [dayStep, dayStep, hopen]
        by_cases hz : tot * t'.openP = 0
        · rw [if_pos hz, if_pos hz]
        · rw [if_neg hz, if_neg hz]
          have h2 := ih ts0 ts0' htail
          cases hds : dayStep funds tot as ts0 with
          | error e =>
            rw [hds] at h2
            cases hds' : dayStep funds tot as ts0' with
            | error e' =>
              rw [hds'] at h2
              simp only [Except.map] at h2
              simp only [Except.map]
              exact h2
            | ok r' => rw [hds'] at h2; simp [Except.map] at h2
          | ok r =>
            rw [hds] at h2
            cases hds' : dayStep funds tot as ts0' with
            | error e' => rw [hds'] at h2; simp [Except.map] at h2
            | ok r' =>
              rw [hds'] at h2
              simp only [Except.map, Except.ok.injEq] at h2
              obtain ⟨qs0, rd0, ts1⟩ := r
              obtain ⟨qs0', rd0', ts1'⟩ := r'
              simp only [Except.map, Except.ok.injEq]
              simp only at h2
              rw [h2]

theorem updateDataset_map_fst (d : Dataset) (k : ℕ) (v : List HistoricalStock) :
    (updateDataset d k v).map Prod.fst = d.map Prod.fst := by
  induction d with
  | nil => rfl
  | cons p rest ih =>
    rw [updateDataset]
    by_cases hp : p.1 = k
    · rw [if_pos hp]
      simp [ih]
    · rw [if_neg hp]
      simp [ih]

theorem getRecords_updateDataset_ne (d : Dataset) (k k2 : ℕ) (v : List HistoricalStock)
    (hne : k ≠ k2) : getRecords (updateDataset d k2 v) k = getRecords d k := by
  induction d with
  | nil => rfl
  | cons p rest ih =>
    rw [updateDataset]
    by_cases hp : p.1 = k2
    · rw [if_pos hp, getRecords, getRecords]
      have : ¬ p.1 = k := by
        rw [hp]
        exact fun h => hne h.symm
      rw [if_neg this, if_neg this]
      exact ih
    · rw [if_neg hp, getRecords, getRecords]
      by_cases hk : p.1 = k
      · rw [if_pos hk, if_pos hk]
      · rw [if_neg hk, if_neg hk]
        exact ih

theorem updateDataset_not_mem (d : Dataset) (k : ℕ) (v : List HistoricalStock)
    (h : k ∉ d.map Prod.fst) : updateDataset d k v = d := by
  induction d with
  | nil => rfl
  | cons p rest ih =>
    simp only [List.map_cons, List.mem_cons] at h
    push_neg at h
    rw [updateDataset, if_neg (fun hp => h.1 hp.symm), ih h.2]

theorem updateDataset_map_entryFrame (d : Dataset) (k : ℕ) (v : List HistoricalStock)
    (hnd : (d.map Prod.fst).Nodup)
    (hv : v.map frameOf = (getRecords d k).map frameOf) :
    (updateDataset d k v).map entryFrame = d.map entryFrame := by
  induction d with
  | nil => rfl
  | cons p rest ih =>
    simp only [List.map_cons, List.nodup_cons] at hnd
    rw [updateDataset]
    by_cases hp : p.1 = k
    · rw [if_pos hp]
      rw [getRecords, if_pos hp] at hv
      have hrest : updateDataset rest k v = rest := by
        apply updateDataset_not_mem
        rw [← hp]
        exact hnd.1
      rw [hrest]
      simp [entryFrame, hv]
    · rw [if_neg hp]
      rw [getRecords, if_neg hp] at hv
      simp only [List.map_cons, List.cons.injEq]
      refine ⟨?_, ih hnd.2 hv⟩
      trivial

theorem processDay_ok_spec (f : HistoricalStock → ℚ) (data : Dataset) (funds : ℚ)
    (dd td : ℕ) (data2 : Dataset) (funds2 entry : ℚ) (sv : List ℤ)
    (h : processDay f data funds dd td = Except.ok (data2, funds2, entry, sv)) :
    ∃ rd ts2,
      dayStep funds ((getRecords data dd).map f).sum ((getRecords data dd).map f)
          (getRecords data td) = Except.ok (sv, rd, ts2) ∧
      funds ≠ 0 ∧ data2 = updateDataset data td ts2 ∧
      funds2 = funds + rd ∧ entry = rd * 100 / funds := by
  rw [processDay] at h
  split at h
  · exact absurd h (by simp)
  · rename_i sv0 rd0 ts0 heq
    split at h
    · exact absurd h (by simp)
    · rename_i hf
      simp only [Except.ok.injEq, Prod.mk.injEq] at h
      obtain ⟨h1, h2, h3, h4⟩ := h
      subst h4
      exact ⟨rd0, ts0, heq, hf, h1.symm, h2.symm, h3.symm⟩

theorem simLoop_ok_lengths (f : HistoricalStock → ℚ) :
    ∀ (days : List ℕ) (data : Dataset) (funds : ℚ) (rets : List ℚ) (turn : List ℤ)
      (svOld : Option (List ℤ)) data2 funds2 rets2 turn2,
      simLoop f data funds rets turn svOld days = Except.ok (data2, funds2, rets2, turn2) →
      rets2.length = rets.length + (days.length - 1) ∧
      turn2.length = turn.length +
        (if svOld.isSome then days.length - 1 else days.length - 2) := by
  intro days
  induction days with
  | nil =>
    intro data funds rets turn svOld data2 funds2 rets2 turn2 h
    simp only [simLoop, Except.ok.injEq, Prod.mk.injEq] at h
    obtain ⟨_, _, h3, h4⟩ := h
    subst h3
    subst h4
    cases svOld <;> simp
  | cons d1 tail ih =>
    intro data funds rets turn svOld data2 funds2 rets2 turn2 h
    cases tail with
    | nil =>
      simp only [simLoop, Except.ok.injEq, Prod.mk.injEq] at h
      obtain ⟨_, _, h3, h4⟩ := h
      subst h3
      subst h4
      cases svOld <;> simp
    | cons d2 rest =>
      rw [simLoop] at h
      split at h
      · exact absurd h (by simp)
      · rename_i data1 funds1 entry sv heq
        split at h
        · have h5 := ih data1 funds1 (rets ++ [entry]) turn (some sv) data2 funds2 rets2
            turn2 h
          simp only [List.length_append, List.length_cons, List.length_nil,
            Option.isSome_some, Option.isSome_none, if_true, if_false,
            Bool.false_eq_true] at h5 ⊢
          omega
        · rename_i svo
          split at h
          · rename_i hlen
            have h5 := ih data1 funds1 (rets ++ [entry]) (turn ++ [dotZ sv svo]) (some sv)
              data2 funds2 rets2 turn2 h
            simp only [List.length_append, List.length_cons, List.length_nil,
              Option.isSome_some, Option.isSome_none, if_true, if_false,
              Bool.false_eq_true] at h5 ⊢
            omega
          · exact absurd h (by simp)

theorem simLoop_ok_turn_append (f : HistoricalStock → ℚ) :
    ∀ (days : List ℕ) (data : Dataset) (funds : ℚ) (rets : List ℚ) (turn : List ℤ)
      (svOld : Option (List ℤ)) data2 funds2 rets2 turn2,
      simLoop f data funds rets turn svOld days = Except.ok (data2, funds2, rets2, turn2) →
      ∃ ext, turn2 = turn ++ ext := by
  intro days
  induction days with
  | nil =>
    intro data funds rets turn svOld data2 funds2 rets2 turn2 h
    simp only [simLoop, Except.ok.injEq, Prod.mk.injEq] at h
    exact ⟨[], by simp [← h.2.2.2]⟩
  | cons d1 tail ih =>
    intro data funds rets turn svOld data2 funds2 rets2 turn2 h
    cases tail with
    | nil =>
      simp only [simLoop, Except.ok.injEq, Prod.mk.injEq] at h
      exact ⟨[], by simp [← h.2.2.2]⟩
    | cons d2 rest =>
      rw [simLoop] at h
      split at h
      · exact absurd h (by simp)
      · rename_i data1 funds1 entry sv heq
        split at h
        · exact ih data1 funds1 (rets ++ [entry]) turn (some sv) data2 funds2 rets2 turn2 h
        · rename_i svo
          split at h
          · rename_i hlen
            obtain ⟨ext, hext⟩ := ih data1 funds1 (rets ++ [entry]) (turn ++ [dotZ sv svo])
              (some sv) data2 funds2 rets2 turn2 h
            exact ⟨[dotZ sv svo] ++ ext, by rw [hext, List.append_assoc]⟩
          · exact absurd h (by simp)

theorem simLoop_ok_frames (f : HistoricalStock → ℚ) :
    ∀ (days : List ℕ) (data : Dataset) (funds : ℚ) (rets : List ℚ) (turn : List ℤ)
      (svOld : Option (List ℤ)) data2 funds2 rets2 turn2,
      (data.map Prod.fst).Nodup →
      simLoop f data funds rets turn svOld days = Except.ok (data2, funds2, rets2, turn2) →
      data2.map entryFrame = data.map entryFrame := by
  intro days
  induction days with
  | nil =>
    intro data funds rets turn svOld data2 funds2 rets2 turn2 hnd h
    simp only [simLoop, Except.ok.injEq, Prod.mk.injEq] at h
    rw [← h.1]
  | cons d1 tail ih =>
    intro data funds rets turn svOld data2 funds2 rets2 turn2 hnd h
    cases tail with
    | nil =>
      simp only [simLoop, Except.ok.injEq, Prod.mk.injEq] at h
      rw [← h.1]
    | cons d2 rest =>
      rw [simLoop] at h
      split at h
      · exact absurd h (by simp)
      · rename_i data1 funds1 entry sv heq
        obtain ⟨rd, ts2, hds, hf, hdata1, _, _⟩ := processDay_ok_spec f data funds d1 d2
          data1 funds1 entry sv heq
        have hframes : ts2.map frameOf = (getRecords data d2).map frameOf :=
          dayStep_ok_frames funds ((getRecords data d1).map f).sum
            ((getRecords data d1).map f) (getRecords data d2) sv rd ts2 hds
        have hdata1frames : data1.map entryFrame = data.map entryFrame := by
          rw [hdata1]
          exact updateDataset_map_entryFrame data d2 ts2 hnd hframes
        have hnd1 : (data1.map Prod.fst).Nodup := by
          rw [hdata1, updateDataset_map_fst]
          exact hnd
        split at h
        · have h5 := ih data1 funds1 (rets ++ [entry]) turn (some sv) data2 funds2 rets2
            turn2 hnd1 h
          rw [h5, hdata1frames]
        · rename_i svo
          split at h
          · rename_i hlen
            have h5 := ih data1 funds1 (rets ++ [entry]) (turn ++ [dotZ sv svo]) (some sv)
              data2 funds2 rets2 turn2 hnd1 h
            rw [h5, hdata1frames]
          · exact absurd h (by simp)

theorem simLoop_ok_outside (f : HistoricalStock → ℚ) :
    ∀ (days : List ℕ) (data : Dataset) (funds : ℚ) (rets : List ℚ) (turn : List ℤ)
      (svOld : Option (List ℤ)) data2 funds2 rets2 turn2 (k : ℕ),
      simLoop f data funds rets turn svOld days = Except.ok (data2, funds2, rets2, turn2) →
      k ∉ days.tail →
      getRecords data2 k = getRecords data k := by
  intro days
  induction days with
  | nil =>
    intro data funds rets turn svOld data2 funds2 rets2 turn2 k h _
    simp only [simLoop, Except.ok.injEq, Prod.mk.injEq] at h
    rw [← h.1]
  | cons d1 tail ih =>
    intro data funds rets turn svOld data2 funds2 rets2 turn2 k h hk
    cases tail with
    | nil =>
      simp only [simLoop, Except.ok.injEq, Prod.mk.injEq] at h
      rw [← h.1]
    | cons d2 rest =>
      simp only [List.tail_cons, List.mem_cons] at hk
      push_neg at hk
      rw [simLoop] at h
      split at h
      · exact absurd h (by simp)
      · rename_i data1 funds1 entry sv heq
        obtain ⟨rd, ts2, hds, hf, hdata1, _, _⟩ := processDay_ok_spec f data funds d1 d2
          data1 funds1 entry sv heq
        have hout : getRecords data1 k = getRecords data k := by
          rw [hdata1]
          exact getRecords_updateDataset_ne data k d2 ts2 hk.1
        split at h
        · have h5 := ih data1 funds1 (rets ++ [entry]) turn (some sv) data2 funds2 rets2
            turn2 k h (by simpa using hk.2)
          rw [h5, hout]
        · rename_i svo
          split at h
          · rename_i hlen
            have h5 := ih data1 funds1 (rets ++ [entry]) (turn ++ [dotZ sv svo]) (some sv)
              data2 funds2 rets2 turn2 k h (by simpa using hk.2)
            rw [h5, hout]
          · exact absurd h (by simp)

/-! Concrete records, datasets and strategies used by witnesses and
counterexamples. -/

/-- A record with the given open and close price (the only price fields
`simulate` reads). -/
def mkRec (o c : ℚ) : HistoricalStock :=
  ⟨"", 0, o, c, o, c, 0, 0⟩

/-- A concrete deterministic strategy: score a record by its close-open delta. -/
def alphaCO : HistoricalStock → ℚ := fun s => s.close - s.openP

/-- Two days, one stock: day 0 scores 1, day 1 trades at open 2, close 3. -/
def dW : Dataset := [(0, [mkRec 1 2]), (1, [mkRec 2 3])]

/-- The state `simulate alphaCO` produces from `initState dW`. -/
def dWout : AlphaState :=
  ⟨1500000, [0], [50], [(0, [mkRec 1 2]), (1, [setReturns (mkRec 2 3) 500000])]⟩

theorem foldl_max_init_le (l : List ℕ) : ∀ b : ℕ, b ≤ l.foldl max b := by
  induction l with
  | nil => intro b; exact le_refl b
  | cons a tl ih =>
    intro b
    exact le_trans (le_max_left b a) (ih (max b a))

theorem mem_le_foldl_max (l : List ℕ) : ∀ (b x : ℕ), x ∈ l → x ≤ l.foldl max b := by
  induction l with
  | nil => intro b x hx; simp at hx
  | cons a tl ih =>
    intro b x hx
    rw [List.mem_cons] at hx
    cases hx with
    | inl h => subst h; exact le_trans (le_max_right b x) (foldl_max_init_le tl (max b x))
    | inr h => exact ih (max b a) x h

theorem length_le_maxRecordCount (d : Dataset) (k : ℕ) (v : List HistoricalStock)
    (h : (k, v) ∈ d) : v.length ≤ maxRecordCount d := by
  rw [maxRecordCount]
  exact mem_le_foldl_max _ 0 v.length (List.mem_map_of_mem (fun p => p.2.length) h)

/-- C6: after `verify_historical_data`, a date/record-list pair is retained
exactly when it was present before and its record count equals the maximum
record count observed across all dates; every date with strictly fewer records
is removed. -/
theorem claim_C6_coverage_repair (d d2 : Dataset)
    (h : verify_historical_data d = some d2) :
    ∀ (k : ℕ) (v : List HistoricalStock),
      ((k, v) ∈ d2 ↔ ((k, v) ∈ d ∧ v.length = maxRecordCount d)) := by
  cases d with
  | nil => simp [verify_historical_data] at h
  | cons p rest =>
    simp only [verify_historical_data, Option.some.injEq] at h
    subst h
    intro k v
    rw [List.mem_filter]
    simp only [decide_eq_true_eq, not_lt]
    constructor
    · rintro ⟨hm, hge⟩
      exact ⟨hm, le_antisymm (length_le_maxRecordCount _ k v hm) hge⟩
    · rintro ⟨hm, heq⟩
      exact ⟨hm, ge_of_eq heq⟩

/-- A dataset whose date 1 lacks full coverage (0 records versus the maximum
of 1). -/
def dC6 : Dataset := [(0, [defaultStock]), (1, [])]

/-- Witness for C6: on `dC6`, `verify_historical_data` keeps date 0 (full
coverage) — instantiating the theorem at date 0's entry. -/
theorem claim_C6_witness :
    ((0, [defaultStock]) ∈ [((0 : ℕ), [defaultStock])] ↔
      ((0, [defaultStock]) ∈ dC6 ∧
        ([defaultStock] : List HistoricalStock).length = maxRecordCount dC6)) :=
  claim_C6_coverage_repair dC6 [(0, [defaultStock])] rfl 0 [defaultStock]

/-- C10: on an empty dataset mapping `verify_historical_data` fails (Python's
`max([])` raises `ValueError`), and on any non-empty mapping it returns
normally. -/
theorem claim_C10_verify_totality :
    verify_historical_data ([] : Dataset) = none ∧
    ∀ d : Dataset, d ≠ [] → (verify_historical_data d).isSome = true := by
  constructor
  · rfl
  · intro d hd
    cases d with
    | nil => exact absurd rfl hd
    | cons p rest => simp [verify_historical_data]

/-- Witness for C10: a one-date dataset is accepted. -/
theorem claim_C10_witness :
    (verify_historical_data [((3 : ℕ), [defaultStock])]).isSome = true :=
  claim_C10_verify_totality.2 [(3, [defaultStock])] (by simp)

/-- C8 (amended): on a dataset with fewer than 2 dates, `simulate` completes
normally — it resets the output series (`turnover = [0]`, `returns = []`),
leaves funds and data untouched, and raises no error: the code has no
`InsufficientData` check and its day loop simply runs zero times. -/
theorem claim_C8_short_data (f : HistoricalStock → ℚ) (st : AlphaState)
    (h : st.data.length ≤ 1) :
    simulate f st = Except.ok ⟨st.funds, [0], [], st.data⟩ := by
  rw [simulate]
  have hlen : (sortedDays st.data).length ≤ 1 := by
    rw [sortedDays, (List.perm_insertionSort _ _).length_eq, List.length_map]
    exact h
  cases hsd : sortedDays st.data with
  | nil => rw [simLoop]
  | cons k tl =>
    cases tl with
    | nil => rw [simLoop]
    | cons k2 tl2 =>
      rw [hsd] at hlen
      simp at hlen

/-- Counterexample for C8: a one-date dataset makes `simulate` return
normally (empty returns, turnover `[0]`) — it does not fail with any
`InsufficientData`-style error. -/
theorem claim_C8_counterexample :
    simulate alphaCO (initState [(5, [mkRec 1 2])]) =
      Except.ok ⟨1000000, [0], [], [(5, [mkRec 1 2])]⟩ := rfl

/-- Witness for C8's amended theorem at a concrete empty-data state. -/
theorem claim_C8_witness :
    simulate alphaCO ⟨42, [9], [8], []⟩ = Except.ok ⟨42, [0], [], []⟩ :=
  claim_C8_short_data alphaCO ⟨42, [9], [8], []⟩ (by simp)

/-- C4 (amended): `simulate` re-initializes the output series, so its result
depends only on the funds balance and the dataset — not on the previous
contents of `self.returns` / `self.turnover`.  It does not reset
`self.funds`, so two states agreeing on funds and data (but not necessarily
on the series) produce identical results. -/
theorem claim_C4_state_dependence (f : HistoricalStock → ℚ) (s1 s2 : AlphaState)
    (hf : s1.funds = s2.funds) (hd : s1.data = s2.data) :
    simulate f s1 = simulate f s2 := by
  rw [simulate, simulate, hf, hd]

/-- Witness for C4's amended theorem: junk in the pre-call series does not
change the result. -/
theorem claim_C4_witness :
    simulate alphaCO ⟨1000000, [7], [3], dW⟩ = simulate alphaCO ⟨1000000, [0], [], dW⟩ :=
  claim_C4_state_dependence alphaCO ⟨1000000, [7], [3], dW⟩ ⟨1000000, [0], [], dW⟩ rfl rfl

/-- Two days, one stock, for the C4 counterexample: day 0 scores 1, day 1
trades at open 3, close 4 (an inexact division, so truncation matters). -/
def dC4 : Dataset := [(0, [mkRec 1 2]), (1, [mkRec 3 4])]

/-- Counterexample for C4: `simulate` does not reset funds to 1,000,000.  The
first call from the initial state ends with funds 1,333,333 and returns entry
33.3333; a second call on the same dataset (return fields reset) then starts
from funds 1,333,333 — as the code leaves `self.funds` untouched — and
produces the different returns entry 44444400/1333333, so the two runs'
returns sequences differ. -/
theorem claim_C4_counterexample :
    (simulate alphaCO (initState dC4)).map AlphaState.funds = Except.ok 1333333 ∧
    (simulate alphaCO (initState dC4)).map AlphaState.returns =
      Except.ok [333333 / 10000] ∧
    (simulate alphaCO ⟨1333333, [0], [333333 / 10000], dC4⟩).map AlphaState.returns =
      Except.ok [44444400 / 1333333] ∧
    ((333333 / 10000 : ℚ) ≠ 44444400 / 1333333) := by
  refine ⟨?_, ?_, ?_, by norm_num⟩ <;>
    norm_num [simulate, simLoop, processDay, dayStep, initState, sortedDays, getRecords,
      updateDataset, truncToZero, dotZ, mkRec, alphaCO, dC4, List.insertionSort,
      List.orderedInsert, setReturns, Except.map]

/-- C2: when `simulate` completes normally on a dataset with N ≥ 2 dates, the
returns and turnover series both have length N − 1 and the first turnover
entry is exactly 0 (the sentinel the engine starts the series with). -/
theorem claim_C2_output_shapes (f : HistoricalStock → ℚ) (st st2 : AlphaState)
    (hN : 2 ≤ st.data.length)
    (h : simulate f st = Except.ok st2) :
    st2.returns.length = st.data.length - 1 ∧
    st2.turnover.length = st.data.length - 1 ∧
    st2.turnover.head? = some 0 := by
  rw [simulate] at h
  split at h
  · exact absurd h (by simp)
  · rename_i data2 funds2 rets turn heq
    simp only [Except.ok.injEq] at h
    subst h
    have hdays : (sortedDays st.data).length = st.data.length := by
      rw [sortedDays, (List.perm_insertionSort _ _).length_eq, List.length_map]
    have hlen := simLoop_ok_lengths f (sortedDays st.data) st.data st.funds [] [0] none
      data2 funds2 rets turn heq
    obtain ⟨ext, hext⟩ := simLoop_ok_turn_append f (sortedDays st.data) st.data st.funds
      [] [0] none data2 funds2 rets turn heq
    simp only [Option.isSome_none, List.length_nil, List.length_cons, if_false,
      Bool.false_eq_true] at hlen
    rw [hdays] at hlen
    refine ⟨?_, ?_, ?_⟩
    · show rets.length = st.data.length - 1
      omega
    · show turn.length = st.data.length - 1
      omega
    · show turn.head? = some 0
      rw [hext]
      rfl

/-- Witness for C2 on the two-day dataset `dW`. -/
theorem claim_C2_witness :
    dWout.returns.length = (initState dW).data.length - 1 ∧
    dWout.turnover.length = (initState dW).data.length - 1 ∧
    dWout.turnover.head? = some 0 :=
  claim_C2_output_shapes alphaCO (initState dW) dWout (by norm_num [initState, dW])
    (by norm_num [simulate, simLoop, processDay, dayStep, initState, sortedDays,
      getRecords, updateDataset, truncToZero, dotZ, mkRec, alphaCO, dW, dWout,
      List.insertionSort, List.orderedInsert, setReturns])

/-- C9: a normal `simulate` run preserves the dataset's dates in order, each
date's record count and order, and every record field except the realized
return (`entryFrame` projects a dataset entry to everything but the return
fields); and the earliest date's records are untouched entirely, since the
first date is never processed as a trading day. -/
theorem claim_C9_frame (f : HistoricalStock → ℚ) (st st2 : AlphaState)
    (hnd : (st.data.map Prod.fst).Nodup)
    (h : simulate f st = Except.ok st2) :
    st2.data.map entryFrame = st.data.map entryFrame ∧
    ∀ k0, (sortedDays st.data).head? = some k0 →
      getRecords st2.data k0 = getRecords st.data k0 := by
  rw [simulate] at h
  split at h
  · exact absurd h (by simp)
  · rename_i data2 funds2 rets turn heq
    simp only [Except.ok.injEq] at h
    subst h
    constructor
    · show data2.map entryFrame = _
      exact simLoop_ok_frames f (sortedDays st.data) st.data st.funds [] [0] none
        data2 funds2 rets turn hnd heq
    · intro k0 hk0
      show getRecords data2 k0 = _
      have hndsorted : (sortedDays st.data).Nodup :=
        ((List.perm_insertionSort (fun a b => a ≤ b) (st.data.map Prod.fst)).nodup_iff).mpr
          hnd
      cases hsd : sortedDays st.data with
      | nil => rw [hsd] at hk0; simp at hk0
      | cons k1 tl =>
        rw [hsd] at hk0
        simp only [List.head?_cons, Option.some.injEq] at hk0
        subst hk0
        rw [hsd, List.nodup_cons] at hndsorted
        rw [hsd] at heq
        refine simLoop_ok_outside f (k1 :: tl) st.data st.funds [] [0] none data2 funds2
          rets turn k1 heq ?_
        simpa using hndsorted.1

/-- Witness for C9 on the two-day dataset `dW`: frames and the earliest date's
records are preserved. -/
theorem claim_C9_witness :
    dWout.data.map entryFrame = (initState dW).data.map entryFrame ∧
    ∀ k0, (sortedDays (initState dW).data).head? = some k0 →
      getRecords dWout.data k0 = getRecords (initState dW).data k0 :=
  claim_C9_frame alphaCO (initState dW) dWout (by norm_num [initState, dW])
    (by norm_num [simulate, simLoop, processDay, dayStep, initState, sortedDays,
      getRecords, updateDataset, truncToZero, dotZ, mkRec, alphaCO, dW, dWout,
      List.insertionSort, List.orderedInsert, setReturns])

/-- C5: on a normally processed trading day, the appended returns entry equals
the day's total realized return (the sum over stocks of
(close − open) · quantity) times 100 divided by the funds balance before the
update, and the new funds balance is exactly the old balance plus that total
realized return. -/
theorem claim_C5_returns_and_funds (f : HistoricalStock → ℚ) (data : Dataset)
    (funds : ℚ) (dd td : ℕ) (data2 : Dataset) (funds2 entry : ℚ) (sv : List ℤ)
    (h : processDay f data funds dd td = Except.ok (data2, funds2, entry, sv)) :
    entry = (List.zipWith (fun (q : ℤ) (t : HistoricalStock) =>
        (t.close - t.openP) * (q : ℚ)) sv (getRecords data td)).sum * 100 / funds ∧
    funds2 = funds + (List.zipWith (fun (q : ℤ) (t : HistoricalStock) =>
        (t.close - t.openP) * (q : ℚ)) sv (getRecords data td)).sum := by
  obtain ⟨rd, ts2, hds, hf, _, hfunds, hentry⟩ :=
    processDay_ok_spec f data funds dd td data2 funds2 entry sv h
  have hsum := dayStep_ok_sum funds ((getRecords data dd).map f).sum
    ((getRecords data dd).map f) (getRecords data td) sv rd ts2 hds
  rw [hentry, hfunds, hsum]
  exact ⟨rfl, rfl⟩

/-- Witness for C5 on `dW`'s single trading day: entry 50 and funds
1,500,000. -/
theorem claim_C5_witness :
    (50 : ℚ) = (List.zipWith (fun (q : ℤ) (t : HistoricalStock) =>
        (t.close - t.openP) * (q : ℚ)) [500000] (getRecords dW 1)).sum * 100 / 1000000 ∧
    (1500000 : ℚ) = 1000000 + (List.zipWith (fun (q : ℤ) (t : HistoricalStock) =>
        (t.close - t.openP) * (q : ℚ)) [500000] (getRecords dW 1)).sum :=
  claim_C5_returns_and_funds alphaCO dW 1000000 0 1
    [(0, [mkRec 1 2]), (1, [setReturns (mkRec 2 3) 500000])] 1500000 50 [500000]
    (by norm_num [processDay, dayStep, getRecords, updateDataset, truncToZero,
      mkRec, alphaCO, dW, setReturns])

/-- C1 (amended): on a normally processed trading day, the j-th target
quantity equals the truncation toward zero — Python's `int(...)`, not the
floor — of alpha_stock[j] · funds / (alpha_total · open_price[trading_day][j]),
where the scores come from the data day's records and the open price from the
trading day's. -/
theorem claim_C1_quantity_formula (f : HistoricalStock → ℚ) (data : Dataset)
    (funds : ℚ) (dd td : ℕ) (data2 : Dataset) (funds2 entry : ℚ) (sv : List ℤ)
    (h : processDay f data funds dd td = Except.ok (data2, funds2, entry, sv))
    (j : ℕ) (hj : j < (getRecords data dd).length) :
    sv.getD j 0 = truncToZero (((getRecords data dd).map f).getD j 0 * funds /
      (((getRecords data dd).map f).sum *
        ((getRecords data td).getD j defaultStock).openP)) := by
  obtain ⟨rd, ts2, hds, _, _, _, _⟩ :=
    processDay_ok_spec f data funds dd td data2 funds2 entry sv h
  exact dayStep_ok_getD funds ((getRecords data dd).map f).sum
    ((getRecords data dd).map f) (getRecords data td) sv rd ts2 hds j
    (by simpa using hj)

/-- Witness for C1's amended theorem on `dW`'s trading day, index 0. -/
theorem claim_C1_witness :
    ([(500000 : ℤ)].getD 0 0) = truncToZero (((getRecords dW 0).map alphaCO).getD 0 0 *
      1000000 / (((getRecords dW 0).map alphaCO).sum *
        ((getRecords dW 1).getD 0 defaultStock).openP)) :=
  claim_C1_quantity_formula alphaCO dW 1000000 0 1
    [(0, [mkRec 1 2]), (1, [setReturns (mkRec 2 3) 500000])] 1500000 50 [500000]
    (by norm_num [processDay, dayStep, getRecords, updateDataset, truncToZero,
      mkRec, alphaCO, dW, setReturns])
    0 (by norm_num [getRecords, dW])

/-- Dataset for the C1 counterexample: on day 0 stock A scores −1 and stock B
scores 3 (alpha_total 2); on day 1 A opens at 3 and closes at 4 (so its
written return equals its quantity), B opens at 1 and closes at 2. -/
def dC1 : Dataset := [(0, [mkRec 2 1, mkRec 1 4]), (1, [mkRec 3 4, mkRec 1 2])]

/-- Counterexample for C1: with score −1, funds 1,000,000, alpha_total 2 and
open price 3, the engine computes quantity −166666 (visible in day 1's
written return for stock A, whose close − open is 1), whereas the claim's
floor formula demands ⌊−1 · 1000000 / (2 · 3)⌋ = −166667: `int()` truncates
toward zero, it does not floor. -/
theorem claim_C1_counterexample :
    (simulate alphaCO (initState dC1)).map
        (fun s => (getRecords s.data 1).map HistoricalStock.returns) =
      Except.ok [(-166666 : ℚ), 1500000] ∧
    ⌊((-1 : ℚ) * 1000000 / (2 * 3))⌋ = -166667 ∧
    truncToZero ((-1 : ℚ) * 1000000 / (2 * 3)) = -166666 := by
  refine ⟨?_, ?_, ?_⟩
  · norm_num [simulate, simLoop, processDay, dayStep, initState, sortedDays, getRecords,
      updateDataset, truncToZero, dotZ, mkRec, alphaCO, dC1, List.insertionSort,
      List.orderedInsert, setReturns, Except.map]
  · rw [Int.floor_eq_iff]
    norm_num
  · norm_num [truncToZero]

/-- C3 (amended): the quantity vector for a trading day depends only on the
data day's records, the funds balance, and the trading day's open prices —
changing any other trading-day record data (close, high, low, volume, ...)
cannot change it.  (It is not independent of the trading day entirely: the
open prices are the trading day's.) -/
theorem claim_C3_no_lookahead (f : HistoricalStock → ℚ) (funds : ℚ)
    (ds ts1 ts2 : List HistoricalStock)
    (h : ts1.map HistoricalStock.openP = ts2.map HistoricalStock.openP) :
    dayQuantities f funds ds ts1 = dayQuantities f funds ds ts2 := by
  rw [dayQuantities, dayQuantities]
  exact dayStep_map_fst_open funds ((ds.map f)).sum (ds.map f) ts1 ts2 h

/-- Witness for C3's amended theorem: same open price, different close
price, same quantities. -/
theorem claim_C3_witness :
    dayQuantities alphaCO 1000000 [mkRec 1 2] [mkRec 4 10] =
      dayQuantities alphaCO 1000000 [mkRec 1 2] [mkRec 4 99] :=
  claim_C3_no_lookahead alphaCO 1000000 [mkRec 1 2] [mkRec 4 10] [mkRec 4 99]
    (by norm_num [mkRec])

/-- Counterexample for C3: two trading-day record lists that differ only in
record data of the trading day (here the open price: 4 versus 5) yield
different quantity vectors — 250000 versus 200000 — because the quantity
formula divides by the trading day's open price.  Quantities are not a
function of the prior day alone. -/
theorem claim_C3_counterexample :
    dayQuantities alphaCO 1000000 [mkRec 1 2] [mkRec 4 10] = Except.ok [250000] ∧
    dayQuantities alphaCO 1000000 [mkRec 1 2] [mkRec 5 10] = Except.ok [200000] ∧
    dayQuantities alphaCO 1000000 [mkRec 1 2] [mkRec 4 10] ≠
      dayQuantities alphaCO 1000000 [mkRec 1 2] [mkRec 5 10] := by
  refine ⟨?_, ?_, ?_⟩ <;>
    norm_num [dayQuantities, dayStep, truncToZero, mkRec, alphaCO, Except.map]

/-- C7 (amended): when the strategy's scores on the first data day sum to
zero (and both the data day and the trading day have at least one record),
`simulate` raises Python's built-in `ZeroDivisionError` from the quantity
division — it neither produces NaN/Inf values or a quantity vector, nor any
explicit `DegenerateAllocation` error, which does not exist in the code. -/
theorem claim_C7_zero_total (f : HistoricalStock → ℚ) (st : AlphaState)
    (k1 k2 : ℕ) (rest : List ℕ)
    (hdays : sortedDays st.data = k1 :: k2 :: rest)
    (h1 : getRecords st.data k1 ≠ [])
    (h2 : getRecords st.data k2 ≠ [])
    (hzero : ((getRecords st.data k1).map f).sum = 0) :
    simulate f st = Except.error SimError.zeroDivision := by
  have hpd : processDay f st.data st.funds k1 k2 = Except.error SimError.zeroDivision := by
    rw [processDay]
    cases hr1 : getRecords st.data k1 with
    | nil => exact absurd hr1 h1
    | cons r rs =>
      cases hr2 : getRecords st.data k2 with
      | nil => exact absurd hr2 h2
      | cons t ts =>
        rw [hr1] at hzero
        simp only [List.map_cons]
        rw [dayStep]
        rw [List.map_cons] at hzero
        rw [hzero, zero_mul, if_pos rfl]
  rw [simulate, hdays, simLoop, hpd]

/-- Dataset for the C7 witness: two aligned days with nonempty records. -/
def dC7 : Dataset := [(2, [mkRec 1 2]), (3, [mkRec 3 4])]

/-- Witness for C7's amended theorem: the all-zero strategy makes the first
trading day fail with the division error. -/
theorem claim_C7_witness :
    simulate (fun _ => (0 : ℚ)) (initState dC7) = Except.error SimError.zeroDivision :=
  claim_C7_zero_total (fun _ => (0 : ℚ)) (initState dC7) 2 3 []
    (by decide)
    (by simp [getRecords, initState, dC7])
    (by simp [getRecords, initState, dC7])
    (by simp [getRecords, initState, dC7])

/-- Counterexample for C7: a strategy scoring 0 for every stock makes
`simulate` fail with a plain `ZeroDivisionError` (the division by
`alpha_total * open`), not with any explicit `DegenerateAllocation` error —
no such error type exists in the code. -/
theorem claim_C7_counterexample :
    simulate (fun _ => (0 : ℚ)) (initState dC4) = Except.error SimError.zeroDivision := by
  norm_num [simulate, simLoop, processDay, dayStep, initState, sortedDays, getRecords,
    updateDataset, truncToZero, dotZ, mkRec, dC4, List.insertionSort,
    List.orderedInsert, setReturns]
